import Mathlib

/-!
Verification of the float-filtering and search-matching logic of the
flot-argo-sih dashboard.  The definitions below are a shallow embedding of
the filtering code in `frontend/src/components/MapView.tsx`: the search
matcher applied to each `ArgoFloat` record, the empty-search identity, the
region bounding boxes, the year-extraction rule applied to the raw search
term, and (modelled from the spec, because the FastAPI backend is not part
of the frontend sources) the temporal filter with its range validation.

JavaScript numbers are embedded as exact rationals (`ℚ`); the concrete
coordinates appearing in the repository's examples are all exactly
representable, so no floating-point rounding is observable in any theorem
below.  JavaScript strings are embedded as Lean strings over their
character lists.
-/

/-! ### JavaScript string primitives -/

/-- Substring occurrence: `includesList needle hay = true` iff `needle`
occurs as a contiguous substring of `hay`; this is JavaScript `hay.includes(needle)` on character
lists. -/
def includesList (needle : List Char) : List Char → Bool
  | [] => needle.isEmpty
  | c :: t => needle.isPrefixOf (c :: t) || includesList needle t

/-- JavaScript `hay.includes(needle)`. -/
def strIncludes (hay needle : String) : Bool :=
  includesList needle.toList hay.toList

/-- JavaScript `s.toLowerCase()` (the sources only use ASCII data). -/
def lowerStr (s : String) : String :=
  String.mk (s.toList.map Char.toLower)

/-- Strip leading and trailing whitespace from a character list. -/
def trimList (l : List Char) : List Char :=
  ((l.dropWhile Char.isWhitespace).reverse.dropWhile Char.isWhitespace).reverse

/-- JavaScript `s.trim()` (the sources only use ASCII whitespace). -/
def jsTrim (s : String) : String :=
  String.mk (trimList s.toList)

/-! ### JavaScript `Number.prototype.toFixed` on exact rationals

`toFixed` extracts the sign and then rounds the magnitude to the requested
number of digits, halves up; the map code uses only `toFixed(1)` and
`toFixed(0)`.  The rounding is written over the numerator and denominator
with plain natural-number arithmetic: for `a, b : ℕ` with `b > 0`,
`(2*a + b) / (2*b)` is `a/b` rounded to the nearest integer, halves up. -/

/-- Quotient `a/b` rounded to the nearest natural, halves up. -/
def roundHalfUpND (a b : ℕ) : ℕ := (2 * a + b) / (2 * b)

/-- JavaScript `x.toFixed(0)`: sign of `x`, then the rounded magnitude. -/
def toFixed0 (x : ℚ) : String :=
  (if x < 0 then "-" else "") ++ Nat.repr (roundHalfUpND x.num.natAbs x.den)

/-- JavaScript `x.toFixed(1)`: sign of `x`, then the magnitude rounded to
tenths, printed with one digit after the decimal point. -/
def toFixed1 (x : ℚ) : String :=
  let n := roundHalfUpND (x.num.natAbs * 10) x.den
  (if x < 0 then "-" else "") ++ Nat.repr (n / 10) ++ "." ++ Nat.repr (n % 10)

/-- JavaScript `Math.abs` on rationals. -/
def ratAbs (q : ℚ) : ℚ := if q < 0 then -q else q

/-! ### The float record (interface `ArgoFloat` in `MapView.tsx`) -/

/-- One float record as received by the map component: `id`, coordinates,
optional measurements, optional cycle number, optional timestamp and a
status string.  `cycle` is a JavaScript number used only as an integer. -/
structure ArgoFloat where
  id : String
  lat : ℚ
  lon : ℚ
  temperature : Option ℚ
  salinity : Option ℚ
  pressure : Option ℚ
  cycle : Option ℤ
  time : Option String
  status : String
deriving DecidableEq

/-! ### Region bounding boxes (`MapView.tsx` lines 108–127) -/

/-- Source: `float.lon >= -70 && float.lon <= 20 && Math.abs(float.lat) <= 60`. -/
def atlanticBox (lat lon : ℚ) : Bool :=
  decide (-70 ≤ lon) && decide (lon ≤ 20) && decide (ratAbs lat ≤ 60)

/-- Source: `(float.lon >= 120 || float.lon <= -70) && Math.abs(float.lat) <= 60`. -/
def pacificBox (lat lon : ℚ) : Bool :=
  (decide (120 ≤ lon) || decide (lon ≤ -70)) && decide (ratAbs lat ≤ 60)

/-- Source: `float.lon >= 20 && float.lon <= 120 && float.lat >= -60 && float.lat <= 30`. -/
def indianBox (lat lon : ℚ) : Bool :=
  decide (20 ≤ lon) && decide (lon ≤ 120) && decide (-60 ≤ lat) && decide (lat ≤ 30)

/-- Source: `float.lat > 23`. -/
def northBand (lat : ℚ) : Bool := decide (23 < lat)

/-- Source: `float.lat < -23`. -/
def southBand (lat : ℚ) : Bool := decide (lat < -23)

/-- Source: `Math.abs(float.lat) <= 23`. -/
def equatorialBand (lat : ℚ) : Bool := decide (ratAbs lat ≤ 23)

/-! ### The search matcher (`MapView.tsx` lines 96–130) -/

/-- The cycle rule `float.cycle && float.cycle.toString().includes(term)`:
JavaScript truthiness makes both `null` and `0` fail the guard. -/
def cycleRule (c : Option ℤ) (term : String) : Bool :=
  match c with
  | none => false
  | some n => if n = 0 then false else strIncludes (Int.repr n) term

/-- The first formatted coordinate string
`` `${float.lat.toFixed(1)},${float.lon.toFixed(1)}` ``. -/
def coordStr1 (f : ArgoFloat) : String :=
  toFixed1 f.lat ++ "," ++ toFixed1 f.lon

/-- The second formatted coordinate string
`` `${float.lat.toFixed(0)},${float.lon.toFixed(0)}` ``. -/
def coordStr0 (f : ArgoFloat) : String :=
  toFixed0 f.lat ++ "," ++ toFixed0 f.lon

/-- The filter callback of `MapView.tsx` lines 96–130, applied to one record
and the trimmed lower-cased search term: a sequence of early-return `if`
statements.  The id, coordinate and cycle rules return `true` on success and
fall through on failure; each keyword rule *returns the verdict of its
bounding predicate* (true or false) as soon as its keyword is present in the
term. -/
def searchMatches (f : ArgoFloat) (term : String) : Bool :=
  if strIncludes (lowerStr f.id) term then true
  else if strIncludes (coordStr1 f) term then true
  else if strIncludes (coordStr0 f) term then true
  else if cycleRule f.cycle term then true
  else if strIncludes term "atlantic" then atlanticBox f.lat f.lon
  else if strIncludes term "pacific" then pacificBox f.lat f.lon
  else if strIncludes term "indian" then indianBox f.lat f.lon
  else if strIncludes term "north" || term == "arctic" then northBand f.lat
  else if strIncludes term "south" || term == "antarctic" then southBand f.lat
  else if strIncludes term "equatorial" || term == "equator" then equatorialBand f.lat
  else false

/-- The filtering effect of `MapView.tsx` lines 92–132: an empty (after
trimming) search term keeps the whole collection, otherwise the collection is
filtered by `searchMatches` against the lower-cased trimmed term. -/
def filterFloats (floats : List ArgoFloat) (searchTerm : String) : List ArgoFloat :=
  if (jsTrim searchTerm).isEmpty then floats
  else floats.filter (fun f => searchMatches f (jsTrim (lowerStr searchTerm)))

/-! ### Year extraction (`extractDateFilterFromSearch`, lines 40–50)

The regular expression `\b(20\d{2})\b` is embedded as a left-to-right scan:
a match at a position requires the four characters `2`, `0`, digit, digit
there, no word character immediately before, and no word character
immediately after. -/

/-- JavaScript `\w`: ASCII letter, digit or underscore. -/
def isWordChar (c : Char) : Bool := c.isAlphanum || c == '_'

/-- Try to read `20\d{2}` at the head of the list, returning the four
matched characters as a string together with the remainder. -/
def yearHead : List Char → Option (String × List Char)
  | c1 :: c2 :: c3 :: c4 :: after =>
    if c1 == '2' && c2 == '0' && c3.isDigit && c4.isDigit then
      some (String.mk [c1, c2, c3, c4], after)
    else none
  | _ => none

/-- The right word-boundary test `\b` after the matched year: end of string
or a non-word character. -/
def boundaryAfter : List Char → Bool
  | [] => true
  | a :: _ => !isWordChar a

/-- Scan the character list left to right for the first position where
`\b(20\d{2})\b` matches; `p` records whether the character immediately
before the current position is a word character (`false` at the start of the
string). -/
def findYearAux (p : Bool) : List Char → Option String
  | [] => none
  | c :: rest =>
    match yearHead (c :: rest) with
    | some (y, after) =>
      if !p && boundaryAfter after then some y
      else findYearAux (isWordChar c) rest
    | none => findYearAux (isWordChar c) rest

/-- Source: `term.match(/\b(20\d{2})\b/)`, returning the captured year. -/
def findYearToken (term : String) : Option String :=
  findYearAux false term.toList

/-- The mutable `{startDate, endDate}` pair of the map component. -/
structure DateRangeState where
  startDate : String
  endDate : String
deriving DecidableEq

/-- Source `extractDateFilterFromSearch` (lines 40–50): if the raw search term
contains a standalone `20\d{2}` token, return the range from January 1 to
December 31 of that year. -/
def extractDateFilterFromSearch (term : String) : Option DateRangeState :=
  match findYearToken term with
  | some y => some ⟨y ++ "-01-01", y ++ "-12-31"⟩
  | none => none

/-- The date-range side effect of the search `useEffect` (lines 85–90): a
detected year overwrites both dates, otherwise the current range is kept. -/
def applySearchDateEffect (st : DateRangeState) (term : String) : DateRangeState :=
  match extractDateFilterFromSearch term with
  | some r => r
  | none => st

/-- Here `lastIsWord p pre` is `isWordChar` of the last character of `pre`, or
`p` when `pre` is empty: the left word-boundary state after scanning `pre`
starting from boundary state `p`. -/
def lastIsWord (p : Bool) (pre : List Char) : Bool :=
  pre.foldl (fun _ c => isWordChar c) p

/-! ### The specification's reading of the matcher (§4.3)

`searchMatchesSpecOr` is written from the specification's words — five rules
combined as a plain boolean OR — to be compared with `searchMatches`, which
is the source's if/else chain. -/

/-- Rule 1: case-insensitive substring match of the term against the id. -/
def idRule (f : ArgoFloat) (term : String) : Bool :=
  strIncludes (lowerStr f.id) term

/-- Rule 2: substring match against either formatted coordinate string. -/
def coordRule (f : ArgoFloat) (term : String) : Bool :=
  strIncludes (coordStr1 f) term || strIncludes (coordStr0 f) term

/-- Rule 4 as the specification words it: each region keyword contributes
its bounding-box verdict as a disjunct. -/
def regionRuleOr (f : ArgoFloat) (term : String) : Bool :=
  (strIncludes term "atlantic" && atlanticBox f.lat f.lon) ||
  (strIncludes term "pacific" && pacificBox f.lat f.lon) ||
  (strIncludes term "indian" && indianBox f.lat f.lon)

/-- Rule 5 as the specification words it: each latitude-band keyword
contributes its band verdict as a disjunct. -/
def bandRuleOr (f : ArgoFloat) (term : String) : Bool :=
  ((strIncludes term "north" || term == "arctic") && northBand f.lat) ||
  ((strIncludes term "south" || term == "antarctic") && southBand f.lat) ||
  ((strIncludes term "equatorial" || term == "equator") && equatorialBand f.lat)

/-- The matcher as described by the specification for C1: the five rules
OR'd together, so that any rule alone suffices for a match. -/
def searchMatchesSpecOr (f : ArgoFloat) (term : String) : Bool :=
  idRule f term || coordRule f term || cycleRule f.cycle term ||
  regionRuleOr f term || bandRuleOr f term

/-- The keyword portion of the source matcher as it actually executes: the
first keyword present in the term decides the verdict and later keywords
are never consulted. -/
def keywordChain (f : ArgoFloat) (term : String) : Bool :=
  if strIncludes term "atlantic" then atlanticBox f.lat f.lon
  else if strIncludes term "pacific" then pacificBox f.lat f.lon
  else if strIncludes term "indian" then indianBox f.lat f.lon
  else if strIncludes term "north" || term == "arctic" then northBand f.lat
  else if strIncludes term "south" || term == "antarctic" then southBand f.lat
  else if strIncludes term "equatorial" || term == "equator" then equatorialBand f.lat
  else false

/-! ### Temporal filter (modelled from the spec) -/

/-- Failure modes of the temporal filter (spec §7). -/
inductive QueryError where
  | invalidRange
  | invalidDate
deriving DecidableEq

/-- Strict lexicographic comparison of character lists. -/
def lexLtChars : List Char → List Char → Bool
  | [], [] => false
  | [], _ :: _ => true
  | _ :: _, [] => false
  | a :: as, b :: bs =>
    if a < b then true else if b < a then false else lexLtChars as bs

/-- Strict order on ISO `YYYY-MM-DD` date strings; lexicographic comparison
agrees with calendar order for this fixed-width format. -/
def dateLt (a b : String) : Bool := lexLtChars a.toList b.toList

/-- Inclusive order on ISO date strings. -/
def dateLe (a b : String) : Bool := !dateLt b a

/-- Modelled from the spec: the temporal filter with its range validation
(spec §4.1, §7) lives in the FastAPI backend behind `/floats/locations`
(`backend/app`), which is not among the frontend sources; the frontend
merely forwards `start_date`/`end_date` (`MapView.tsx` lines 52–82).  If
`startDate > endDate` the query fails with `InvalidRangeError` and no
partial result is produced; otherwise the records whose `time` falls inside
the inclusive range are kept in order. -/
def temporalFilter (records : List ArgoFloat) (startDate endDate : String) :
    Except QueryError (List ArgoFloat) :=
  if dateLt endDate startDate then .error .invalidRange
  else .ok (records.filter fun f =>
    match f.time with
    | some t => dateLe startDate t && dateLe t endDate
    | none => false)

/-! ### Concrete records used by the examples below -/

/-- The record of the specification's WMO example (§8). -/
def wmoRecord : ArgoFloat :=
  ⟨"WMO_2021_PAC_042", -35, 150, none, none, none, none, none, "active"⟩

/-- A record north of 23° but outside every ocean bounding box. -/
def northPacificFloat : ArgoFloat :=
  ⟨"f1", 50, 0, none, none, none, none, none, "active"⟩

/-- A record with cycle number 0 at `(7.5, 7.5)` (chosen so that no digit
`0` occurs in its formatted coordinate strings). -/
def zeroCycleFloat : ArgoFloat :=
  ⟨"x", ⟨15, 2, by decide, by decide⟩, ⟨15, 2, by decide, by decide⟩,
   none, none, none, some 0, none, "active"⟩

/-! ## Theorems -/

/-- Function `ratAbs` is the mathematical absolute value. -/
theorem ratAbs_eq_abs (q : ℚ) : ratAbs q = |q| := by
  unfold ratAbs
  split_ifs with h
  · exact (abs_of_neg h).symm
  · exact (abs_of_nonneg (le_of_not_lt h)).symm

/-- C2: for every coordinate pair in range, the six spatial predicates are
exactly the fixed bounding rules of the specification: pacific iff
(lon ≥ 120 or lon ≤ -70) and |lat| ≤ 60; atlantic iff -70 ≤ lon ≤ 20 and
|lat| ≤ 60; indian iff 20 ≤ lon ≤ 120 and -60 ≤ lat ≤ 30; north/arctic iff
lat > 23; south/antarctic iff lat < -23; equatorial/equator iff |lat| ≤ 23. -/
theorem spatialClassifier_bounding_rules (lat lon : ℚ)
    (_hlat₁ : -90 ≤ lat) (_hlat₂ : lat ≤ 90) (_hlon₁ : -180 ≤ lon) (_hlon₂ : lon ≤ 180) :
    (pacificBox lat lon = true ↔ (120 ≤ lon ∨ lon ≤ -70) ∧ |lat| ≤ 60) ∧
    (atlanticBox lat lon = true ↔ (-70 ≤ lon ∧ lon ≤ 20) ∧ |lat| ≤ 60) ∧
    (indianBox lat lon = true ↔ (20 ≤ lon ∧ lon ≤ 120) ∧ (-60 ≤ lat ∧ lat ≤ 30)) ∧
    (northBand lat = true ↔ 23 < lat) ∧
    (southBand lat = true ↔ lat < -23) ∧
    (equatorialBand lat = true ↔ |lat| ≤ 23) := by
  simp [pacificBox, atlanticBox, indianBox, northBand, southBand, equatorialBand,
    ratAbs_eq_abs, and_assoc]

/-- Witness for C2 at the in-range point `(0, 0)`. -/
theorem spatialClassifier_bounding_rules_witness :
    (pacificBox 0 0 = true ↔ ((120 : ℚ) ≤ 0 ∨ (0 : ℚ) ≤ -70) ∧ |(0 : ℚ)| ≤ 60) ∧
    (atlanticBox 0 0 = true ↔ ((-70 : ℚ) ≤ 0 ∧ (0 : ℚ) ≤ 20) ∧ |(0 : ℚ)| ≤ 60) ∧
    (indianBox 0 0 = true ↔ ((20 : ℚ) ≤ 0 ∧ (0 : ℚ) ≤ 120) ∧ ((-60 : ℚ) ≤ 0 ∧ (0 : ℚ) ≤ 30)) ∧
    (northBand 0 = true ↔ (23 : ℚ) < 0) ∧
    (southBand 0 = true ↔ (0 : ℚ) < -23) ∧
    (equatorialBand 0 = true ↔ |(0 : ℚ)| ≤ 23) :=
  spatialClassifier_bounding_rules 0 0 (by decide) (by decide) (by decide) (by decide)

/-- C1 (counterexample): the record at `(50, 0)` with the search term
`"north pacific"` is rejected by the source matcher — the `pacific` keyword
alone decides and its box fails — although the specification's OR of the
five rules accepts it through the `north` latitude band. -/
theorem searchMatches_not_or_counterexample :
    searchMatches northPacificFloat "north pacific" = false ∧
    searchMatchesSpecOr northPacificFloat "north pacific" = true :=
  ⟨rfl, rfl⟩

/-- C1 (amended): the id, coordinate and cycle rules combine as a boolean
OR, but the keyword rules do not: when none of the first three rules fires,
the first keyword group present in the term — tested in the fixed order
atlantic, pacific, indian, north/arctic, south/antarctic,
equatorial/equator — alone decides the verdict through its predicate, and a
term with no keyword does not match. -/
theorem searchMatches_eq_rules_or_keywordChain (f : ArgoFloat) (term : String) :
    searchMatches f term =
      (idRule f term || coordRule f term || cycleRule f.cycle term || keywordChain f term) := by
  unfold searchMatches idRule coordRule keywordChain
  cases h1 : strIncludes (lowerStr f.id) term <;>
    cases h2 : strIncludes (coordStr1 f) term <;>
      cases h3 : strIncludes (coordStr0 f) term <;>
        cases h4 : cycleRule f.cycle term <;>
          simp [h1, h2, h3, h4]

/-- C4: a search term consisting only of whitespace (in particular the
empty term) applies no filtering: the result is the input collection,
unchanged and in order. -/
theorem filterFloats_empty_identity (floats : List ArgoFloat) (term : String)
    (h : ∀ c ∈ term.toList, c.isWhitespace = true) :
    filterFloats floats term = floats := by
  have hdrop : term.toList.dropWhile Char.isWhitespace = [] := by
    rw [List.dropWhile_eq_nil_iff]
    exact h
  have htrim : jsTrim term = "" := by
    unfold jsTrim trimList
    rw [hdrop]
    rfl
  unfold filterFloats
  rw [htrim]
  rfl

/-- Witness for C4: a two-space search term returns the single-element
collection unchanged. -/
theorem filterFloats_empty_identity_witness :
    filterFloats [northPacificFloat] "  " = [northPacificFloat] :=
  filterFloats_empty_identity [northPacificFloat] "  " (by decide)

/-- C5: for every collection and every search term, the filtering result is
a sublist of the input — only records drawn from the input, in their
original relative order; the engine only selects, never alters. -/
theorem filterFloats_sublist (floats : List ArgoFloat) (term : String) :
    (filterFloats floats term).Sublist floats := by
  unfold filterFloats
  split
  · exact List.Sublist.refl floats
  · exact List.filter_sublist floats

/-- C6: the record `WMO_2021_PAC_042` at `(-35, 150)` matches `"wmo_2021"`
by case-insensitive id substring; it matches `"pacific"` exactly as decided
by the Pacific bounding box (its id does not contain `"pacific"`), hence it
matches `"pacific"` and not `"atlantic"`. -/
theorem wmoRecord_search_examples :
    searchMatches wmoRecord "wmo_2021" = true ∧
    searchMatches wmoRecord "pacific" = pacificBox wmoRecord.lat wmoRecord.lon ∧
    strIncludes (lowerStr wmoRecord.id) "pacific" = false ∧
    searchMatches wmoRecord "pacific" = true ∧
    searchMatches wmoRecord "atlantic" = false :=
  ⟨rfl, rfl, rfl, rfl, rfl⟩

/-- C7 (counterexample): a record whose cycle is present with value `0` is
never matched by the cycle rule — JavaScript truthiness of
`float.cycle && …` treats cycle `0` like an absent cycle — although the
term `"0"` is a substring of the decimal form `"0"` of the cycle. -/
theorem cycleRule_zero_counterexample :
    zeroCycleFloat.cycle = some 0 ∧
    strIncludes (Int.repr 0) "0" = true ∧
    cycleRule zeroCycleFloat.cycle "0" = false ∧
    searchMatches zeroCycleFloat "0" = false :=
  ⟨rfl, rfl, rfl, rfl⟩

/-- C7 (amended): the cycle rule matches exactly when the cycle is present
with a nonzero value and the term is a substring of its decimal string; an
absent — or zero — cycle never matches via the cycle rule. -/
theorem cycleRule_amended (c : Option ℤ) (term : String) :
    cycleRule c term = true ↔
      ∃ n, c = some n ∧ n ≠ 0 ∧ strIncludes (Int.repr n) term = true := by
  cases c with
  | none => simp [cycleRule]
  | some n =>
    by_cases h : n = 0 <;> simp [cycleRule, h]

/-- C8 (modelled from the spec): a date range with `startDate > endDate`
makes the query fail with `InvalidRangeError`; no partial result is
returned. -/
theorem temporalFilter_invalid_range (records : List ArgoFloat) (s e : String)
    (h : dateLt e s = true) :
    temporalFilter records s e = Except.error QueryError.invalidRange := by
  unfold temporalFilter
  rw [h]
  rfl

/-- Witness for C8 at a concrete inverted range. -/
theorem temporalFilter_invalid_range_witness :
    temporalFilter [wmoRecord] "2024-01-01" "2023-01-01" =
      Except.error QueryError.invalidRange :=
  temporalFilter_invalid_range [wmoRecord] "2024-01-01" "2023-01-01" (by decide)

/-- C9: the match verdict depends only on a record's `id`, `lat`, `lon` and
`cycle`: records agreeing on those four fields receive the same verdict for
every term, whatever their measurements, time or status. -/
theorem searchMatches_depends_only_on_id_lat_lon_cycle (f g : ArgoFloat) (term : String)
    (hid : f.id = g.id) (hlat : f.lat = g.lat) (hlon : f.lon = g.lon)
    (hcycle : f.cycle = g.cycle) :
    searchMatches f term = searchMatches g term := by
  cases f
  cases g
  dsimp only at hid hlat hlon hcycle
  subst hid
  subst hlat
  subst hlon
  subst hcycle
  rfl

/-- Witness for C9: two records equal on the four match-relevant fields but
differing in temperature, salinity, pressure, time and status receive the
same verdict. -/
theorem searchMatches_depends_only_witness :
    searchMatches ⟨"WMO_9_9", 10, -140, some 12, none, none, some 5, some "2020-06-01", "active"⟩
        "pacific" =
      searchMatches ⟨"WMO_9_9", 10, -140, none, some 35, some 1000, some 5, none, "inactive"⟩
        "pacific" :=
  searchMatches_depends_only_on_id_lat_lon_cycle _ _ "pacific" rfl rfl rfl rfl

/-! ### Year extraction: the scan finds a year exactly at the clean tokens

The two induction lemmas below characterise `findYearAux`: it returns
`none` when every decomposition of the input around a `20\d{2}` digit block
violates a word boundary, and it returns a year when some decomposition
respects both boundaries. -/

/-- Inversion for `yearHead`: a successful read means the list starts with
`2`, `0` and two digits, and the returned string is those four characters. -/
theorem yearHead_eq_some {l : List Char} {y : String} {after : List Char}
    (h : yearHead l = some (y, after)) :
    ∃ c3 c4, l = '2' :: '0' :: c3 :: c4 :: after ∧ c3.isDigit = true ∧ c4.isDigit = true ∧
      y = String.mk ['2', '0', c3, c4] := by
  match l with
  | [] => exact absurd h (by simp [yearHead])
  | [a] => exact absurd h (by simp [yearHead])
  | [a, b] => exact absurd h (by simp [yearHead])
  | [a, b, c] => exact absurd h (by simp [yearHead])
  | a :: b :: c :: d :: rest =>
    rw [yearHead] at h
    by_cases hc : (a == '2' && b == '0' && c.isDigit && d.isDigit) = true
    · rw [if_pos hc] at h
      simp only [Option.some.injEq, Prod.mk.injEq] at h
      obtain ⟨hy, hafter⟩ := h
      simp only [Bool.and_eq_true, beq_iff_eq] at hc
      obtain ⟨⟨⟨ha2, hb0⟩, hc3⟩, hd4⟩ := hc
      subst ha2; subst hb0; subst hafter; subst hy
      exact ⟨c, d, rfl, hc3, hd4, rfl⟩
    · rw [if_neg hc] at h
      exact absurd h (by simp)

/-- The scan finds nothing when every `20\d{2}` digit block in the input
fails a word boundary (`p` is the boundary state to the left of the
input). -/
theorem findYearAux_eq_none (l : List Char) : ∀ p : Bool,
    (∀ pre c3 c4 suf, l = pre ++ '2' :: '0' :: c3 :: c4 :: suf →
      c3.isDigit = true → c4.isDigit = true →
      lastIsWord p pre = true ∨ boundaryAfter suf = false) →
    findYearAux p l = none := by
  induction l with
  | nil => intro p _; rfl
  | cons c rest ih =>
    intro p h
    unfold findYearAux
    cases hy : yearHead (c :: rest) with
    | none =>
      simp only [hy]
      apply ih
      intro pre c3 c4 suf hsplit h3 h4
      exact h (c :: pre) c3 c4 suf (by rw [hsplit]; rfl) h3 h4
    | some ya =>
      obtain ⟨y, after⟩ := ya
      simp only [hy]
      obtain ⟨c3, c4, hsplit, h3, h4, hy'⟩ := yearHead_eq_some hy
      have hcontra := h [] c3 c4 after (by simpa using hsplit) h3 h4
      have hb : ¬ ((!p && boundaryAfter after) = true) := by
        rcases hcontra with hc1 | hc2
        · have hp : p = true := hc1
          simp [hp]
        · simp [hc2]
      rw [if_neg hb]
      apply ih
      intro pre c3' c4' suf hsplit' h3' h4'
      exact h (c :: pre) c3' c4' suf (by rw [hsplit']; rfl) h3' h4'

/-- The scan succeeds when the input decomposes around a `20\d{2}` digit
block with a word boundary on both sides, and the returned string is a
`20\d{2}` year (possibly from an earlier clean token). -/
theorem findYearAux_eq_some (pre : List Char) :
    ∀ (p : Bool) (l : List Char) (c3 c4 : Char) (suf : List Char),
    l = pre ++ '2' :: '0' :: c3 :: c4 :: suf → c3.isDigit = true → c4.isDigit = true →
    lastIsWord p pre = false → boundaryAfter suf = true →
    ∃ a b, a.isDigit = true ∧ b.isDigit = true ∧
      findYearAux p l = some (String.mk ['2', '0', a, b]) := by
  induction pre with
  | nil =>
    intro p l c3 c4 suf hl h3 h4 hleft hright
    subst hl
    refine ⟨c3, c4, h3, h4, ?_⟩
    have hy : yearHead ('2' :: '0' :: c3 :: c4 :: suf) =
        some (String.mk ['2', '0', c3, c4], suf) := by
      simp [yearHead, h3, h4]
    unfold findYearAux
    simp only [List.nil_append, hy]
    have hp : p = false := hleft
    rw [hp]
    simp [hright]
  | cons c pre ih =>
    intro p l c3 c4 suf hl h3 h4 hleft hright
    subst hl
    rw [List.cons_append]
    unfold findYearAux
    cases hy : yearHead (c :: (pre ++ '2' :: '0' :: c3 :: c4 :: suf)) with
    | none =>
      simp only [hy]
      exact ih (isWordChar c) _ c3 c4 suf rfl h3 h4 hleft hright
    | some ya =>
      obtain ⟨y, after⟩ := ya
      simp only [hy]
      by_cases hb : (!p && boundaryAfter after) = true
      · obtain ⟨a, b, heq, ha, hb', hy'⟩ := yearHead_eq_some hy
        rw [if_pos hb, hy']
        exact ⟨a, b, ha, hb', rfl⟩
      · rw [if_neg hb]
        exact ih (isWordChar c) _ c3 c4 suf rfl h3 h4 hleft hright

/-- C3: whenever the raw search term contains a standalone `20\d{2}` token
— a decomposition around a `20dd` digit block with no word character on
either side — the search effect replaces the whole date range with January
1 through December 31 of the found year, whatever range was previously
set. -/
theorem yearToken_overrides_dateRange (term : String) (pre suf : List Char) (c3 c4 : Char)
    (hsplit : term.toList = pre ++ '2' :: '0' :: c3 :: c4 :: suf)
    (h3 : c3.isDigit = true) (h4 : c4.isDigit = true)
    (hleft : lastIsWord false pre = false) (hright : boundaryAfter suf = true) :
    ∃ a b, a.isDigit = true ∧ b.isDigit = true ∧
      ∀ st : DateRangeState,
        applySearchDateEffect st term =
          ⟨String.mk ['2', '0', a, b] ++ "-01-01", String.mk ['2', '0', a, b] ++ "-12-31"⟩ := by
  obtain ⟨a, b, ha, hb, hfind⟩ :=
    findYearAux_eq_some pre false term.toList c3 c4 suf hsplit h3 h4 hleft hright
  refine ⟨a, b, ha, hb, fun st => ?_⟩
  unfold applySearchDateEffect extractDateFilterFromSearch findYearToken
  rw [hfind]

/-- Witness for C3: the term `"2021"` turns the previously set range
2015-01-01 – 2024-12-31 into 2021-01-01 – 2021-12-31. -/
theorem yearToken_overrides_dateRange_witness :
    applySearchDateEffect ⟨"2015-01-01", "2024-12-31"⟩ "2021" =
      ⟨"2021-01-01", "2021-12-31"⟩ ∧
    ∃ a b, a.isDigit = true ∧ b.isDigit = true ∧
      ∀ st : DateRangeState,
        applySearchDateEffect st "2021" =
          ⟨String.mk ['2', '0', a, b] ++ "-01-01", String.mk ['2', '0', a, b] ++ "-12-31"⟩ :=
  ⟨rfl, yearToken_overrides_dateRange "2021" [] [] '2' '1' rfl rfl rfl rfl rfl⟩

/-- C10: when every `20\d{2}` digit block in the raw search term has a word
character (letter, digit or underscore) immediately adjacent on some side,
the extraction returns no suggested range and the active date range is left
unchanged. -/
theorem adjacentWordChar_blocks_year (term : String)
    (h : ∀ pre c3 c4 suf, term.toList = pre ++ '2' :: '0' :: c3 :: c4 :: suf →
      c3.isDigit = true → c4.isDigit = true →
      lastIsWord false pre = true ∨ boundaryAfter suf = false) :
    extractDateFilterFromSearch term = none ∧
    ∀ st : DateRangeState, applySearchDateEffect st term = st := by
  have hfind : findYearAux false term.toList = none := findYearAux_eq_none term.toList false h
  have hext : extractDateFilterFromSearch term = none := by
    unfold extractDateFilterFromSearch findYearToken
    rw [hfind]
  exact ⟨hext, fun st => by unfold applySearchDateEffect; rw [hext]⟩

/-- Witness for C10: in `"wmo_2021"` the only `20\d{2}` block is glued to
the underscore, so no range is suggested and any current range is kept. -/
theorem adjacentWordChar_blocks_year_witness :
    extractDateFilterFromSearch "wmo_2021" = none ∧
    ∀ st : DateRangeState, applySearchDateEffect st "wmo_2021" = st :=
  adjacentWordChar_blocks_year "wmo_2021" (by
    intro pre c3 c4 suf hsplit h3 h4
    rcases pre with
      _ | ⟨a1, _ | ⟨a2, _ | ⟨a3, _ | ⟨a4, _ | ⟨a5, _ | ⟨a6, _ | ⟨a7, _ | ⟨a8, pre⟩⟩⟩⟩⟩⟩⟩⟩ <;>
      simp_all [lastIsWord, isWordChar]
    obtain ⟨-, -, -, rfl, -, -, -⟩ := hsplit
    simp)
